import Mathlib

/-!
Verification of the everLoved voice-session core (VoiceSession.tsx v3.0,
"LINEAR AUDIO QUEUE + SMART INTERRUPT") and the /api/chat route handler.

The TypeScript source is embedded shallowly:

* `AudioQueue` mirrors the class of the same name (VoiceSession.tsx lines
  11-110).  Its methods are pure state transformers `State → State × List
  Callback`, where the callback list records the invocations of
  `onPlaybackStart` / `onPlaybackEnd` and the start of playback of each
  chunk (`audio.play()`).  Chunks are identified by the order in which they
  are pushed: the n-th `push` call carries id n (`nextId`).  The `await`
  inside `fadeOutAndClear` yields to the event loop, so that method is
  split into `fadeOutAndClear` (the guard plus `isFadingOut = true`,
  lines 76-78) and `fadeComplete` (everything after the 200 ms fade loop:
  `this.stop(); this.isFadingOut = false`, lines 90-91); between the two,
  other events may run, exactly as in the browser.  The three identical
  completion paths of a chunk — `audio.onended` (lines 50-56),
  `audio.onerror` (lines 58-62) and the `catch` around `await audio.play()`
  (lines 64-71) — all do `currentAudio = null; playNext()` and are modelled
  by the single event `chunkDone`.

* `VoiceSession` mirrors the React component: the refs and state hooks
  become fields of `VoiceSession.State`, the event handlers become
  functions, and one `step` processes an external event and then runs the
  barge-in `useEffect` (lines 337-344) exactly when its dependency pair
  `(isUserSpeaking, status)` changed during the event, as React does.
  JavaScript timers created by `setTimeout` are modelled as a list of
  outstanding `SilenceTimer`s (each captures the `accumulated` text, as the
  closure at line 409 does); `clearTimeout` removes one from the list.
  In-flight `fetch` calls to /api/chat and /api/speak are lists of pending
  requests whose resolutions arrive as events.  Times are naturals
  (`Date.now()` in ms), carried by each event.

* `ChatRoute.POST` mirrors src/app/api/chat/route.ts lines 45-151; the
  fallible externals (body parse, persona JSON.parse, the Gemini call) are
  inputs of the `Env`.
-/

namespace AudioQueue

/-- The observable callbacks of the queue: `onPlaybackStart`,
`onPlaybackEnd` (= the onDrained of the spec), and the start of playback of
a specific chunk (`audio.play()` on the chunk shifted from the queue). -/
inductive Callback
  | playbackStart
  | playbackEnd
  | chunkStarted (chunk : Nat)
deriving DecidableEq, Repr

/-- The private fields of the `AudioQueue` class (lines 12-17).  `queue`
holds the ids of pending blobs in FIFO order; `nextId` is the id the next
`push` will assign (the count of pushes so far). -/
structure State where
  queue : List Nat
  isPlaying : Bool
  currentClip : Option Nat
  isFadingOut : Bool
  nextId : Nat
deriving DecidableEq, Repr

def State.init : State := ⟨[], false, none, false, 0⟩

/-- `playNext` (lines 33-72).  Empty queue: `isPlaying = false`,
`currentAudio = null`, invoke `onPlaybackEnd`.  Otherwise `isPlaying =
true`, invoke `onPlaybackStart`, shift the head chunk and start playing
it. -/
def playNext (s : State) : State × List Callback :=
  match s.queue with
  | [] => ({ s with isPlaying := false, currentClip := none }, [.playbackEnd])
  | c :: rest =>
      ({ s with isPlaying := true, queue := rest, currentClip := some c },
       [.playbackStart, .chunkStarted c])

/-- `push` (lines 25-30): append to the tail; if nothing is playing, start
`playNext`. -/
def push (s : State) : State × List Callback :=
  let s1 := { s with queue := s.queue ++ [s.nextId], nextId := s.nextId + 1 }
  if s1.isPlaying then (s1, []) else playNext s1

/-- A chunk completion: `audio.onended`, `audio.onerror`, or the rejection
of `await audio.play()` (lines 50-71; the three handlers are identical).
Each does `this.currentAudio = null; this.playNext()`.  After `stop()` the
element is paused with its src cleared, so no completion arrives: when
`currentClip = none` this is a no-op. -/
def chunkDone (s : State) : State × List Callback :=
  match s.currentClip with
  | none => (s, [])
  | some _ => playNext { s with currentClip := none }

/-- `stop` (lines 95-105): drop the current element, clear the whole queue,
`isPlaying = false`, and invoke `onPlaybackEnd` unconditionally. -/
def stop (s : State) : State × List Callback :=
  ({ s with currentClip := none, queue := [], isPlaying := false }, [.playbackEnd])

/-- The synchronous prefix of `fadeOutAndClear` (lines 75-78): the guard
`if (!this.currentAudio || this.isFadingOut) return;` and then
`this.isFadingOut = true`.  The 200 ms fade loop awaits, so the rest runs
later as `fadeComplete`. -/
def fadeOutAndClear (s : State) : State × List Callback :=
  if s.currentClip.isNone || s.isFadingOut then (s, [])
  else ({ s with isFadingOut := true }, [])

/-- The continuation of `fadeOutAndClear` after the fade loop (lines
90-91): `this.stop(); this.isFadingOut = false`.  It runs only if a fade
was begun (otherwise the method already returned), hence the guard. -/
def fadeComplete (s : State) : State × List Callback :=
  if s.isFadingOut then
    let (s1, cbs) := stop s
    ({ s1 with isFadingOut := false }, cbs)
  else (s, [])

inductive Event
  | push
  | chunkDone
  | fadeOutAndClear
  | fadeComplete
  | stop
deriving DecidableEq, Repr

def step (s : State) : Event → State × List Callback
  | .push => push s
  | .chunkDone => chunkDone s
  | .fadeOutAndClear => fadeOutAndClear s
  | .fadeComplete => fadeComplete s
  | .stop => stop s

def runAux (s : State) : List Event → State × List Callback
  | [] => (s, [])
  | e :: es =>
      let (s1, c1) := step s e
      let (s2, c2) := runAux s1 es
      (s2, c1 ++ c2)

def run (evs : List Event) : State × List Callback := runAux State.init evs

/-- The ids of the chunks whose playback was started, in order. -/
def startedIds (cbs : List Callback) : List Nat :=
  cbs.filterMap fun c => match c with | .chunkStarted i => some i | _ => none

/-- How many times `onPlaybackEnd` (onDrained) was invoked. -/
def numDrained (cbs : List Callback) : Nat :=
  (cbs.filter fun c => c = .playbackEnd).length

/-- Invariant tying the queue state to the list `L` of chunk ids already
started: both are strictly increasing, everything already started precedes
everything still queued, and all ids are below `nextId`. -/
def Inv (s : State) (L : List Nat) : Prop :=
  L.Pairwise (· < ·) ∧ s.queue.Pairwise (· < ·) ∧
  (∀ a ∈ L, ∀ b ∈ s.queue, a < b) ∧
  (∀ a ∈ L, a < s.nextId) ∧ (∀ b ∈ s.queue, b < s.nextId)

end AudioQueue

namespace VoiceSession

/-- The `status` React state / `statusRef` (line 182/193).  The component
keeps the ref in sync with the state through a `useEffect`; between events
they agree, so one field suffices. -/
inductive Status
  | idle
  | listening
  | processing
  | speaking
deriving DecidableEq, Repr

/-- One outstanding JavaScript timeout created at line 409: `setTimeout`
returns a handle (`tid`), fires at `deadline = now + SILENCE_THRESHOLD_MS`,
and the callback closes over the `accumulated` string of its turn
(`payload`). -/
structure SilenceTimer where
  tid : Nat
  deadline : Nat
  payload : String
deriving DecidableEq, Repr

/-- The state of `window.speechSynthesis` as used by `playBrowserTTS`
(lines 308-334): no utterance, an utterance queued by `speak` whose
`onstart` has not fired yet, or an utterance currently being spoken. -/
inductive SynthPhase
  | quiet
  | pending (text : String)
  | speaking (text : String)
deriving DecidableEq, Repr

/-- JavaScript `String.prototype.trim()`: drop whitespace from both ends.
(Lean's own `String.trim` is equivalent on these inputs but is defined by
well-founded recursion on byte positions and does not reduce in the
kernel, so an executable structural definition is used.) -/
def jsTrim (s : String) : String :=
  ⟨((s.data.dropWhile Char.isWhitespace).reverse.dropWhile
      Char.isWhitespace).reverse⟩

/-- CONFIG.SILENCE_THRESHOLD_MS (line 174). -/
def SILENCE_THRESHOLD_MS : Nat := 1000
/-- CONFIG.DEAF_PERIOD_MS (line 175). -/
def DEAF_PERIOD_MS : Nat := 800
/-- CONFIG.MIN_TRANSCRIPT_LENGTH (line 176). -/
def MIN_TRANSCRIPT_LENGTH : Nat := 2
/-- The fallback phrase of the `catch` in `processUserSpeech` (line 301). -/
def FALLBACK_TEXT : String := "I\x27m here with you. Take your time."
/-- The default used when the chat route returns an empty `text`
(line 273: `aiText || "I'm here with you."`). -/
def EMPTY_AI_TEXT_DEFAULT : String := "I\x27m here with you."

/-- The outcome of the /api/chat fetch as seen by `processUserSpeech`:
`ok text` is a 2xx response whose JSON parsed with the given `text` field
(`""` when the field is absent or empty, both falsy); `fail` is a network
rejection, a non-ok status (line 270 throws) or a json() failure — all
routed to the same `catch`. -/
inductive ChatOutcome
  | ok (text : String)
  | fail
deriving DecidableEq, Repr

/-- The refs and React state of the component (lines 181-198) that the
claims touch, plus the bookkeeping of outstanding timers and in-flight
fetches.  `prevDeps` is the dependency pair `(isUserSpeaking, status)` the
barge-in `useEffect` (lines 337-344) last ran with. -/
structure State where
  isActive : Bool
  status : Status
  isUserSpeaking : Bool
  transcript : String
  interimTranscript : String
  aiResponse : String
  errorMsg : Option String
  isThinking : Bool
  deafUntil : Nat
  accumulatedText : String
  timers : List SilenceTimer
  silenceTimerRef : Option Nat
  nextTimerId : Nat
  chatInFlight : List (Nat × String)
  nextChatId : Nat
  ttsInFlight : List (Nat × String)
  nextTtsId : Nat
  synth : SynthPhase
  aq : AudioQueue.State
  prevDeps : Bool × Status
deriving DecidableEq, Repr

def State.init : State :=
  { isActive := false, status := .idle, isUserSpeaking := false,
    transcript := "", interimTranscript := "", aiResponse := "",
    errorMsg := none, isThinking := false, deafUntil := 0,
    accumulatedText := "", timers := [], silenceTimerRef := none,
    nextTimerId := 0, chatInFlight := [], nextChatId := 0,
    ttsInFlight := [], nextTtsId := 0, synth := .quiet,
    aq := AudioQueue.State.init, prevDeps := (false, .idle) }

/-- Side effects observable outside the component. -/
inductive Effect
  | recogStart
  | recogStop
  | recogAbort
  | recogRestart
  | chatRequest (text : String)
  | ttsRequest (text : String)
  | chunkStarted (chunk : Nat)
  | synthSpeak (text : String)
  | synthCancel
  | speakingChanged (isSpeaking : Bool)
  | bargeIn
deriving DecidableEq, Repr

/-- `if (silenceTimerRef.current) { clearTimeout(...); silenceTimerRef.current
= null; }` as in `onspeechstart` (lines 370-373) and `handleEndSession`
(lines 489-492). -/
def clearSilenceTimer (s : State) : State :=
  match s.silenceTimerRef with
  | none => s
  | some i =>
      { s with timers := s.timers.filter (fun t => t.tid != i),
               silenceTimerRef := none }

/-- `handlePlaybackStart` (lines 210-216): status `speaking`, notify the
caller, arm the deaf window `deafUntil = Date.now() + DEAF_PERIOD_MS`. -/
def handlePlaybackStart (now : Nat) (s : State) : State × List Effect :=
  ({ s with status := .speaking, deafUntil := now + DEAF_PERIOD_MS },
   [.speakingChanged true])

/-- `handlePlaybackEnd` (lines 218-236): a stale call after session end is
dropped by the `isActiveRef` guard; otherwise return to `listening`, clear
the transcripts and the accumulator, and schedule a recognition restart. -/
def handlePlaybackEnd (s : State) : State × List Effect :=
  if s.isActive then
    ({ s with status := .listening, transcript := "", interimTranscript := "",
              accumulatedText := "" },
     [.speakingChanged false, .recogRestart])
  else (s, [])

def applyAQCallback (now : Nat) (s : State) :
    AudioQueue.Callback → State × List Effect
  | .playbackStart => handlePlaybackStart now s
  | .playbackEnd => handlePlaybackEnd s
  | .chunkStarted i => (s, [.chunkStarted i])

def applyAQCallbacks (now : Nat) (s : State) :
    List AudioQueue.Callback → State × List Effect
  | [] => (s, [])
  | c :: cs =>
      let (s1, e1) := applyAQCallback now s c
      let (s2, e2) := applyAQCallbacks now s1 cs
      (s2, e1 ++ e2)

/-- Run an `AudioQueue` operation and deliver its callbacks to the
component's handlers, in order. -/
def liftAQ (now : Nat) (s : State)
    (r : AudioQueue.State × List AudioQueue.Callback) : State × List Effect :=
  applyAQCallbacks now { s with aq := r.1 } r.2

/-- `playBrowserTTS` (lines 308-334): `speechSynthesis.cancel()` then
`speak(utterance)`; the utterance is pending until its `onstart` fires. -/
def playBrowserTTS (text : String) (s : State) : State × List Effect :=
  ({ s with synth := .pending text }, [.synthCancel, .synthSpeak text])

/-- `processUserSpeech` (lines 247-305) up to its first `await`: the guard
(line 248), `recognition.stop()`, status `processing`, clear the
accumulator, and issue the /api/chat fetch (now in flight). -/
def processUserSpeech (text : String) (s : State) : State × List Effect :=
  if jsTrim text = "" ∨ text.length < MIN_TRANSCRIPT_LENGTH ∨ s.isActive = false
  then (s, [])
  else
    ({ s with status := .processing, isThinking := true, accumulatedText := "",
              chatInFlight := s.chatInFlight ++ [(s.nextChatId, text)],
              nextChatId := s.nextChatId + 1 },
     [.recogStop, .chatRequest text])

/-- `handleStartSession` (lines 454-479), microphone granted. -/
def handleStartSession (s : State) : State × List Effect :=
  ({ s with isActive := true, status := .listening, errorMsg := none,
            transcript := "", interimTranscript := "", aiResponse := "",
            accumulatedText := "" },
   [.recogStart])

/-- `handleEndSession` (lines 482-499): kill switch first
(`isActiveRef.current = false`, status `idle`), clear the silence timer,
abort recognition, `audioQueue.stop()` (whose `onPlaybackEnd` is then
dropped by the inactive guard), cancel speech synthesis. -/
def handleEndSession (now : Nat) (s : State) : State × List Effect :=
  let s1 := clearSilenceTimer { s with isActive := false, status := .idle }
  let (s2, e2) := liftAQ now s1 (AudioQueue.stop s1.aq)
  ({ s2 with synth := .quiet }, [.recogAbort] ++ e2 ++ [.synthCancel])

/-- `recognition.onspeechstart` (lines 364-374): inside the deaf window the
event returns at once; otherwise mark the user as speaking and clear the
silence timer. -/
def handleSpeechStart (now : Nat) (s : State) : State × List Effect :=
  if now < s.deafUntil then (s, [])
  else (clearSilenceTimer { s with isUserSpeaking := true }, [])

/-- `recognition.onspeechend` (lines 376-378). -/
def handleSpeechEnd (s : State) : State × List Effect :=
  ({ s with isUserSpeaking := false }, [])

/-- `recognition.onresult` (lines 380-417): dropped when inactive or inside
the deaf window; the interim text is stored; a non-empty final fragment is
appended to the accumulator as `' ' + final`, the trimmed accumulation is
shown, the previous timeout is cleared (the ref is not nulled here) and a
new silence timer is armed whose callback captures `accumulated`. -/
def handleResult (now : Nat) (interim finalTxt : String) (s : State) :
    State × List Effect :=
  if s.isActive = false then (s, [])
  else if now < s.deafUntil then (s, [])
  else
    let s1 := { s with interimTranscript := interim }
    if finalTxt = "" then (s1, [])
    else
      let newAccum := s1.accumulatedText ++ " " ++ finalTxt
      let accumulated := jsTrim newAccum
      let cleared :=
        match s1.silenceTimerRef with
        | none => s1.timers
        | some i => s1.timers.filter (fun t => t.tid != i)
      ({ s1 with accumulatedText := newAccum, transcript := accumulated,
                 timers := cleared ++
                   [⟨s1.nextTimerId, now + SILENCE_THRESHOLD_MS, accumulated⟩],
                 silenceTimerRef := some s1.nextTimerId,
                 nextTimerId := s1.nextTimerId + 1 },
       [])

/-- A JavaScript timeout firing (the callback at lines 409-415).  A cleared
timer never fires (it is no longer outstanding) and no timer fires before
its deadline; the callback checks `isActiveRef`, `statusRef === 'listening'`
and the captured text's length before calling `processUserSpeech`. -/
def handleTimerFire (now tid : Nat) (s : State) : State × List Effect :=
  match s.timers.find? (fun t => t.tid == tid) with
  | none => (s, [])
  | some t =>
      if now < t.deadline then (s, [])
      else if s.isActive = true ∧ s.status = .listening ∧
              MIN_TRANSCRIPT_LENGTH ≤ t.payload.length
      then processUserSpeech t.payload
             { s with timers := s.timers.filter (fun u => u.tid != tid) }
      else ({ s with timers := s.timers.filter (fun u => u.tid != tid) }, [])

/-- Resolution of the /api/chat fetch (lines 262-304).  Success (lines
270-277): `responseText = aiText || "I'm here with you."`, store it, stop
the thinking indicator, and issue the /api/speak fetch.  Any failure lands
in the `catch` (lines 295-304): the fixed fallback phrase is stored and
spoken through the browser TTS.  Note there is no `isActiveRef` guard
anywhere on this path. -/
def handleChatResolve (cid : Nat) (outcome : ChatOutcome) (s : State) :
    State × List Effect :=
  match s.chatInFlight.find? (fun p => p.1 == cid) with
  | none => (s, [])
  | some _ =>
      let s1 := { s with chatInFlight := s.chatInFlight.filter (fun p => p.1 != cid) }
      match outcome with
      | .ok aiText =>
          let responseText := if aiText = "" then EMPTY_AI_TEXT_DEFAULT else aiText
          ({ s1 with aiResponse := responseText, isThinking := false,
                     ttsInFlight := s1.ttsInFlight ++ [(s1.nextTtsId, responseText)],
                     nextTtsId := s1.nextTtsId + 1 },
           [.ttsRequest responseText])
      | .fail =>
          playBrowserTTS FALLBACK_TEXT
            { s1 with isThinking := false, aiResponse := FALLBACK_TEXT }

/-- Resolution of the /api/speak fetch (lines 280-304).  On success the
blob is pushed onto the audio queue (line 293) — with no `isActiveRef`
check; on failure the `catch` speaks the fallback phrase. -/
def handleTtsResolve (now tid : Nat) (ok : Bool) (s : State) :
    State × List Effect :=
  match s.ttsInFlight.find? (fun p => p.1 == tid) with
  | none => (s, [])
  | some _ =>
      let s1 := { s with ttsInFlight := s.ttsInFlight.filter (fun p => p.1 != tid) }
      if ok then liftAQ now s1 (AudioQueue.push s1.aq)
      else
        playBrowserTTS FALLBACK_TEXT
          { s1 with isThinking := false, aiResponse := FALLBACK_TEXT }

/-- `utterance.onstart` (lines 313-317): status `speaking`, notify the
caller, arm the deaf window. -/
def handleSynthStart (now : Nat) (s : State) : State × List Effect :=
  match s.synth with
  | .pending t =>
      ({ s with synth := .speaking t, status := .speaking,
                deafUntil := now + DEAF_PERIOD_MS },
       [.speakingChanged true])
  | _ => (s, [])

/-- `utterance.onend` (lines 319-331): notify the caller; if the session is
still active return to `listening`, clear the transcript and accumulator
(the interim transcript is not cleared here) and schedule a recognition
restart. -/
def handleSynthEnd (s : State) : State × List Effect :=
  match s.synth with
  | .speaking _ =>
      if s.isActive then
        ({ s with synth := .quiet, status := .listening, transcript := "",
                  accumulatedText := "" },
         [.speakingChanged false, .recogRestart])
      else ({ s with synth := .quiet }, [.speakingChanged false])
  | _ => (s, [])

def handleChunkDone (now : Nat) (s : State) : State × List Effect :=
  liftAQ now s (AudioQueue.chunkDone s.aq)

def handleFadeComplete (now : Nat) (s : State) : State × List Effect :=
  liftAQ now s (AudioQueue.fadeComplete s.aq)

/-- The external events driving the component.  Every event carries the
value of `Date.now()` when it is delivered. -/
inductive Event
  | startSession (now : Nat)
  | endSession (now : Nat)
  | speechStart (now : Nat)
  | speechEnd (now : Nat)
  | result (now : Nat) (interim finalTxt : String)
  | timerFire (now tid : Nat)
  | chatResolve (now cid : Nat) (outcome : ChatOutcome)
  | ttsResolve (now tid : Nat) (ok : Bool)
  | synthStart (now : Nat)
  | synthEnd (now : Nat)
  | chunkDone (now : Nat)
  | fadeComplete (now : Nat)
deriving DecidableEq, Repr

def Event.time : Event → Nat
  | .startSession n => n
  | .endSession n => n
  | .speechStart n => n
  | .speechEnd n => n
  | .result n _ _ => n
  | .timerFire n _ => n
  | .chatResolve n _ _ => n
  | .ttsResolve n _ _ => n
  | .synthStart n => n
  | .synthEnd n => n
  | .chunkDone n => n
  | .fadeComplete n => n

def handle (s : State) : Event → State × List Effect
  | .startSession _ => handleStartSession s
  | .endSession n => handleEndSession n s
  | .speechStart n => handleSpeechStart n s
  | .speechEnd _ => handleSpeechEnd s
  | .result n i f => handleResult n i f s
  | .timerFire n tid => handleTimerFire n tid s
  | .chatResolve _ cid o => handleChatResolve cid o s
  | .ttsResolve n tid ok => handleTtsResolve n tid ok s
  | .synthStart n => handleSynthStart n s
  | .synthEnd _ => handleSynthEnd s
  | .chunkDone n => handleChunkDone n s
  | .fadeComplete n => handleFadeComplete n s

/-- The body of the barge-in `useEffect` (lines 339-343) when its condition
holds: log, `audioQueue.fadeOutAndClear()` (which emits no callbacks) and
`speechSynthesis.cancel()`. -/
def bargeInBody (s : State) : State × List Effect :=
  let aq1 := (AudioQueue.fadeOutAndClear s.aq).1
  ({ s with aq := aq1, synth := .quiet }, [.bargeIn, .synthCancel])

/-- One event-loop turn: run the handler, then — as React does after the
commit — run the barge-in `useEffect` iff its dependency pair
`(isUserSpeaking, status)` changed, whose body acts only when the user is
speaking, the status is `speaking`, and `Date.now() > deafUntilRef.current`
(line 339, strict). -/
def step (s : State) (e : Event) : State × List Effect :=
  let (s1, effs) := handle s e
  let deps : Bool × Status := (s1.isUserSpeaking, s1.status)
  if deps ≠ s.prevDeps ∧ s1.isUserSpeaking = true ∧ s1.status = .speaking ∧
     s1.deafUntil < e.time
  then
    let (s2, effs2) := bargeInBody s1
    ({ s2 with prevDeps := deps }, effs ++ effs2)
  else ({ s1 with prevDeps := deps }, effs)

def runAux (s : State) : List Event → State × List Effect
  | [] => (s, [])
  | e :: es =>
      let (s1, f1) := step s e
      let (s2, f2) := runAux s1 es
      (s2, f1 ++ f2)

def run (evs : List Event) : State × List Effect := runAux State.init evs

/-- The texts of the AI chat requests issued (POST /api/chat), in order. -/
def chatRequests (effs : List Effect) : List String :=
  effs.filterMap fun e => match e with | .chatRequest t => some t | _ => none

/-- At most one silence timer is outstanding, and when one is, the ref
holds its handle.  (After a timer fires, the ref may keep the stale handle
— the callback does not null it — but the timer itself is gone.) -/
def timerInv (s : State) : Prop :=
  s.timers = [] ∨ ∃ t, s.timers = [t] ∧ s.silenceTimerRef = some t.tid

end VoiceSession

namespace ChatRoute

/-- The inputs of one POST /api/chat invocation (route.ts lines 45-151):
the `GEMINI_API_KEY` environment variable (`""` models unset or empty —
both falsy at line 48), the parsed request body (`none` when `req.json()`
throws, otherwise the `message` field, `""` when absent or empty — both
falsy at line 58), whether building the persona throws (the `JSON.parse`
of `profile.boundaries` at line 68), and the Gemini call's result (`none`
when `generateContent` / `response.text()` throws, otherwise the model's
text). -/
structure Env where
  apiKey : String
  body : Option String
  personaRaises : Bool
  modelText : Option String
deriving DecidableEq, Repr

/-- An HTTP response: status code and the `text` field of the JSON body
(`none` would be a body without a `text` field). -/
structure Response where
  status : Nat
  text : Option String
deriving DecidableEq, Repr

/-- The phrase returned when the API key is missing (line 51). -/
def keyMissingText : String :=
  "I\x27m here with you, dear. Let\x27s just sit together for a moment."

/-- The phrase returned when the message is missing (line 59). -/
def noMessageText : String :=
  "I\x27m right here with you. Take your time."

/-- The phrase returned by the catch-all error handler (line 147). -/
def errorText : String :=
  "I\x27m having a little trouble right now, but I\x27m here with you. Let\x27s just sit together."

/-- `POST` (route.ts lines 45-151).  Order of checks follows the source:
missing key → 503 with a warm phrase; `req.json()` throwing → the catch
(500, warm phrase); falsy message → 200 with a warm phrase; a throw while
building the persona or calling the model → the catch; success → 200 with
the model's text verbatim. -/
def POST (env : Env) : Response :=
  if env.apiKey = "" then ⟨503, some keyMissingText⟩
  else
    match env.body with
    | none => ⟨500, some errorText⟩
    | some message =>
        if message = "" then ⟨200, some noMessageText⟩
        else if env.personaRaises then ⟨500, some errorText⟩
        else
          match env.modelText with
          | none => ⟨500, some errorText⟩
          | some t => ⟨200, some t⟩

end ChatRoute

/-! ### Concrete traces used by several claims

`sFullTurn` is the state after one complete successful turn up to the start
of audio playback: session started at t = 0, the final fragment "Hello" at
t = 0, the silence timer firing at t = 1000, the chat response "Hi" at
t = 1500, the TTS audio at t = 2000.  At that point the chunk is playing,
`status = speaking` and `deafUntil = 2800`. -/

def fullTurnTrace : List VoiceSession.Event :=
  [.startSession 0, .result 0 "" "Hello", .timerFire 1000 0,
   .chatResolve 1500 0 (.ok "Hi"), .ttsResolve 2000 0 true]

def sFullTurn : VoiceSession.State := (VoiceSession.run fullTurnTrace).1

/-- The state right after the silence timer for "Hello" fired: `status =
processing`, the chat request in flight. -/
def sProcessing : VoiceSession.State :=
  (VoiceSession.run [.startSession 0, .result 0 "" "Hello", .timerFire 1000 0]).1

/-- The trace of C1's failing input up to the session end: a full user turn
whose chat request is still in flight when `endSession` runs at t = 1200. -/
def endSessionTrace : List VoiceSession.Event :=
  [.startSession 0, .result 100 "" "Hello", .timerFire 1100 0, .endSession 1200]

/-- The late resolutions of the in-flight chat and TTS calls, arriving
after the session ended. -/
def lateResolutions : List VoiceSession.Event :=
  [.chatResolve 2000 0 (.ok "Hi"), .ttsResolve 3000 0 true]

/-- A 1 ms speech burst (speech start at t = 0, final fragment and speech
end at t = 1) whose text passes the length filter. -/
def shortBurstTrace : List VoiceSession.Event :=
  [.startSession 0, .speechStart 0, .result 1 "" "Hello", .speechEnd 1,
   .timerFire 1001 0]

/-- A concrete state with one armed silence timer whose captured text "a"
is below MIN_TRANSCRIPT_LENGTH. -/
def sShortPayload : VoiceSession.State :=
  { VoiceSession.State.init with
      isActive := true, status := .listening,
      timers := [⟨0, 1000, "a"⟩], silenceTimerRef := some 0, nextTimerId := 1 }

/-! ## Proofs -/

namespace AudioQueue

theorem startedIds_append (a b : List Callback) :
    startedIds (a ++ b) = startedIds a ++ startedIds b := by
  simp [startedIds]

theorem Inv_init : Inv State.init [] := by
  refine ⟨List.Pairwise.nil, List.Pairwise.nil, ?_, ?_, ?_⟩ <;> simp [State.init]

theorem Inv_playNext {s : State} {L : List Nat} (h : Inv s L) :
    Inv (playNext s).1 (L ++ startedIds (playNext s).2) := by
  obtain ⟨hL, hq, hLq, hLn, hqn⟩ := h
  cases hqe : s.queue with
  | nil =>
      refine ⟨?_, ?_, ?_, ?_, ?_⟩ <;>
        simp_all [playNext, hqe, startedIds]
  | cons c rest =>
      rw [hqe] at hq
      have hcrest : ∀ b ∈ rest, c < b := (List.pairwise_cons.mp hq).1
      have hrest : rest.Pairwise (· < ·) := (List.pairwise_cons.mp hq).2
      have hcq : c ∈ s.queue := by rw [hqe]; exact List.mem_cons_self c rest
      refine ⟨?_, ?_, ?_, ?_, ?_⟩
      · simp only [playNext, hqe, startedIds, List.filterMap]
        rw [List.pairwise_append]
        refine ⟨hL, List.pairwise_singleton _ _, ?_⟩
        intro a ha b hb
        rw [List.mem_singleton] at hb
        rw [hb]
        exact hLq a ha c hcq
      · simpa [playNext, hqe] using hrest
      · simp only [playNext, hqe, startedIds, List.filterMap]
        intro a ha b hb
        rcases List.mem_append.mp ha with ha | ha
        · exact hLq a ha b (by rw [hqe]; exact List.mem_cons_of_mem _ hb)
        · rw [List.mem_singleton] at ha
          rw [ha]
          exact hcrest b hb
      · simp only [playNext, hqe, startedIds, List.filterMap]
        intro a ha
        rcases List.mem_append.mp ha with ha | ha
        · exact hLn a ha
        · rw [List.mem_singleton] at ha
          rw [ha]
          exact hqn c hcq
      · intro b hb
        simp only [playNext, hqe] at hb ⊢
        exact hqn b (by rw [hqe]; exact List.mem_cons_of_mem _ hb)

theorem Inv_push {s : State} {L : List Nat} (h : Inv s L) :
    Inv (push s).1 (L ++ startedIds (push s).2) := by
  obtain ⟨hL, hq, hLq, hLn, hqn⟩ := h
  have h1 : Inv { s with queue := s.queue ++ [s.nextId], nextId := s.nextId + 1 } L := by
    refine ⟨hL, ?_, ?_, ?_, ?_⟩
    · rw [List.pairwise_append]
      refine ⟨hq, List.pairwise_singleton _ _, ?_⟩
      intro a ha b hb
      rw [List.mem_singleton] at hb
      subst hb
      exact hqn a ha
    · intro a ha b hb
      rcases List.mem_append.mp hb with hb | hb
      · exact hLq a ha b hb
      · rw [List.mem_singleton] at hb
        subst hb
        exact hLn a ha
    · intro a ha
      exact Nat.lt_succ_of_lt (hLn a ha)
    · intro b hb
      rcases List.mem_append.mp hb with hb | hb
      · exact Nat.lt_succ_of_lt (hqn b hb)
      · rw [List.mem_singleton] at hb
        subst hb
        exact Nat.lt_succ_self _
  by_cases hp : s.isPlaying
  · simpa [push, hp, startedIds] using h1
  · have := Inv_playNext h1
    simpa [push, hp] using this

theorem Inv_step {s : State} {L : List Nat} (e : Event) (h : Inv s L) :
    Inv (step s e).1 (L ++ startedIds (step s e).2) := by
  obtain ⟨hL, hq, hLq, hLn, hqn⟩ := h
  cases e with
  | push => exact Inv_push ⟨hL, hq, hLq, hLn, hqn⟩
  | chunkDone =>
      cases hc : s.currentClip with
      | none => simpa [step, chunkDone, hc, startedIds] using
          (⟨hL, hq, hLq, hLn, hqn⟩ : Inv s L)
      | some c =>
          have : Inv { s with currentClip := none } L := ⟨hL, hq, hLq, hLn, hqn⟩
          simpa [step, chunkDone, hc] using Inv_playNext this
  | fadeOutAndClear =>
      by_cases hg : s.currentClip.isNone || s.isFadingOut <;>
        exact (by simpa [step, fadeOutAndClear, hg, startedIds] using
          (⟨hL, hq, hLq, hLn, hqn⟩ : Inv s L))
  | fadeComplete =>
      by_cases hg : s.isFadingOut
      · refine ⟨?_, ?_, ?_, ?_, ?_⟩ <;> simp_all [step, fadeComplete, stop, startedIds]
      · simpa [step, fadeComplete, hg, startedIds] using
          (⟨hL, hq, hLq, hLn, hqn⟩ : Inv s L)
  | stop =>
      refine ⟨?_, ?_, ?_, ?_, ?_⟩ <;> simp_all [step, stop, startedIds]

theorem Inv_runAux (evs : List Event) :
    ∀ (s : State) (L : List Nat), Inv s L →
      Inv (runAux s evs).1 (L ++ startedIds (runAux s evs).2) := by
  induction evs with
  | nil => intro s L h; simpa [runAux, startedIds] using h
  | cons e es ih =>
      intro s L h
      have h1 := Inv_step e h
      have h2 := ih (step s e).1 _ h1
      simpa [runAux, startedIds_append, List.append_assoc] using h2

end AudioQueue

/-- C2: over every event sequence, the chunks started (`audio.play()`) form
a strictly increasing sequence of push indices — so each enqueued chunk
begins playback at most once and strictly in enqueue (FIFO) order, and a
chunk once started (hence removed from the queue by `shift`) is never
played again, even if its playback errors.  Moreover, on a completion of
the current chunk (including `onerror` and a rejected `play()`), a
non-empty queue immediately advances: the next chunk `d` becomes current
and starts playing, instead of stalling. -/
theorem C2_fifo_at_most_once :
    (∀ evs : List AudioQueue.Event,
       (AudioQueue.startedIds (AudioQueue.run evs).2).Pairwise (· < ·)) ∧
    (∀ (s : AudioQueue.State) (c d : Nat) (rest : List Nat),
       s.currentClip = some c → s.queue = d :: rest →
       AudioQueue.step s .chunkDone =
         ({ s with currentClip := some d, queue := rest, isPlaying := true },
          [.playbackStart, .chunkStarted d])) := by
  constructor
  · intro evs
    have h := AudioQueue.Inv_runAux evs AudioQueue.State.init [] AudioQueue.Inv_init
    simpa using h.1
  · intro s c d rest hc hq
    simp [AudioQueue.step, AudioQueue.chunkDone, AudioQueue.playNext, hc, hq]

/-- Witness for C2's hypothesised conjunct at a concrete state: chunk 0 is
playing and chunk 1 is queued; on an error completion the queue advances to
chunk 1. -/
theorem C2_fifo_at_most_once_witness :
    (AudioQueue.State.mk [1] true (some 0) false 2).currentClip = some 0 ∧
    (AudioQueue.State.mk [1] true (some 0) false 2).queue = 1 :: [] ∧
    AudioQueue.step ⟨[1], true, some 0, false, 2⟩ .chunkDone =
      (⟨[], true, some 1, false, 2⟩, [.playbackStart, .chunkStarted 1]) :=
  ⟨rfl, rfl, by
    have h := C2_fifo_at_most_once.2 ⟨[1], true, some 0, false, 2⟩ 0 1 [] rfl rfl
    simpa using h⟩

/-- C3 counterexample.  First: after a single `fadeOutAndClear` (interrupt)
during which the playing chunk ends naturally (the fade loop awaits, so
`onended` can run before `this.stop()`), `onPlaybackEnd` fires twice — a
double callback from one interrupt.  Second: `stop()` from the initial
state, where nothing is playing and nothing ever played, still invokes
`onPlaybackEnd` — a callback with no "playing → drained" transition.  Both
refute the claim as stated. -/
theorem C3_counterexample :
    AudioQueue.numDrained (AudioQueue.run
      [.push, .fadeOutAndClear, .chunkDone, .fadeComplete]).2 = 2 ∧
    AudioQueue.step AudioQueue.State.init .stop =
      (AudioQueue.State.init, [.playbackEnd]) ∧
    AudioQueue.State.init.isPlaying = false := by
  decide

/-- C3 amended: `onPlaybackEnd` fires exactly once at each natural drain —
a completion of the current chunk with an empty queue — and never on a
`push` or on the synchronous part of `fadeOutAndClear`; but `stop()`
invokes it unconditionally on every call (even when nothing is playing),
and the completion of `fadeOutAndClear` runs `stop()`, so one interrupt is
followed by one `onPlaybackEnd` — or two, when the current chunk ends
during the 200 ms fade.  The completion of the interrupt does discard all
still-queued chunks. -/
theorem C3_onDrained_amended (s : AudioQueue.State) :
    AudioQueue.numDrained (AudioQueue.step s .push).2 = 0 ∧
    AudioQueue.numDrained (AudioQueue.step s .chunkDone).2 =
      (if s.currentClip.isSome ∧ s.queue = [] then 1 else 0) ∧
    AudioQueue.numDrained (AudioQueue.step s .fadeOutAndClear).2 = 0 ∧
    AudioQueue.numDrained (AudioQueue.step s .stop).2 = 1 ∧
    AudioQueue.numDrained (AudioQueue.step s .fadeComplete).2 =
      (if s.isFadingOut then 1 else 0) ∧
    (AudioQueue.step s .fadeComplete).1.queue =
      (if s.isFadingOut then [] else s.queue) := by
  obtain ⟨q, p, c, f, n⟩ := s
  cases q <;> cases p <;> cases c <;> cases f <;>
    simp [AudioQueue.step, AudioQueue.push, AudioQueue.playNext,
      AudioQueue.chunkDone, AudioQueue.stop, AudioQueue.fadeOutAndClear,
      AudioQueue.fadeComplete, AudioQueue.numDrained]

/-- C10: calling `fadeOutAndClear` when no chunk is currently playing
(`currentAudio` null), or while a fade-out is already in progress, returns
at the guard with no effect at all: the state — including the pending
queue, `isPlaying` and the fade flag — is untouched and no callback is
invoked; in particular no queued chunk is discarded. -/
theorem C10_fadeOutAndClear_noop (s : AudioQueue.State)
    (h : s.currentClip = none ∨ s.isFadingOut = true) :
    AudioQueue.fadeOutAndClear s = (s, []) := by
  rcases h with h | h <;> simp [AudioQueue.fadeOutAndClear, h]

/-- Witness for C10 at a concrete state with a queued chunk and nothing
playing: the queue keeps its chunk. -/
theorem C10_fadeOutAndClear_noop_witness :
    ((AudioQueue.State.mk [5] false none false 6).currentClip = none ∨
     (AudioQueue.State.mk [5] false none false 6).isFadingOut = true) ∧
    AudioQueue.fadeOutAndClear ⟨[5], false, none, false, 6⟩ =
      (⟨[5], false, none, false, 6⟩, []) :=
  ⟨Or.inl rfl, C10_fadeOutAndClear_noop _ (Or.inl rfl)⟩

namespace VoiceSession

/-- `step` written without the intermediate lets, for rewriting. -/
theorem step_eq (s : State) (e : Event) :
    step s e =
      (if ((handle s e).1.isUserSpeaking, (handle s e).1.status) ≠ s.prevDeps ∧
          (handle s e).1.isUserSpeaking = true ∧
          (handle s e).1.status = .speaking ∧
          (handle s e).1.deafUntil < e.time
       then ({ (bargeInBody (handle s e).1).1 with
                prevDeps := ((handle s e).1.isUserSpeaking, (handle s e).1.status) },
             (handle s e).2 ++ (bargeInBody (handle s e).1).2)
       else ({ (handle s e).1 with
                prevDeps := ((handle s e).1.isUserSpeaking, (handle s e).1.status) },
             (handle s e).2)) := rfl

theorem bargeInBody_proj (s : State) :
    (bargeInBody s).1.status = s.status ∧
    (bargeInBody s).1.isActive = s.isActive ∧
    (bargeInBody s).1.isUserSpeaking = s.isUserSpeaking ∧
    (bargeInBody s).1.errorMsg = s.errorMsg ∧
    (bargeInBody s).1.timers = s.timers ∧
    (bargeInBody s).1.silenceTimerRef = s.silenceTimerRef ∧
    (bargeInBody s).2 = [.bargeIn, .synthCancel] := by
  simp [bargeInBody]

theorem chatRequests_append (a b : List Effect) :
    chatRequests (a ++ b) = chatRequests a ++ chatRequests b := by
  simp [chatRequests]

theorem clearSilenceTimer_proj (s : State) :
    (clearSilenceTimer s).isActive = s.isActive ∧
    (clearSilenceTimer s).status = s.status ∧
    (clearSilenceTimer s).isUserSpeaking = s.isUserSpeaking ∧
    (clearSilenceTimer s).deafUntil = s.deafUntil ∧
    (clearSilenceTimer s).aq = s.aq ∧
    (clearSilenceTimer s).synth = s.synth ∧
    (clearSilenceTimer s).prevDeps = s.prevDeps := by
  cases h : s.silenceTimerRef <;> simp [clearSilenceTimer, h]

end VoiceSession

/-- C4: while the coordinator is `speaking` and the deaf window has not
elapsed (`now < deafUntil`), a `speechStarted` detector event is a complete
no-op: `onspeechstart` returns at its first line, no field of the state
changes (no transition), and the barge-in effect does not run — playback
continues uninterrupted.  The quiescence hypothesis `prevDeps = (...)`
states that the barge-in effect has already run for the current dependency
values, which holds after every completed event turn. -/
theorem C4_deaf_window_ignores_speech (s : VoiceSession.State) (now : Nat)
    (_hstat : s.status = .speaking)
    (hdeaf : now < s.deafUntil)
    (hq : s.prevDeps = (s.isUserSpeaking, s.status)) :
    VoiceSession.step s (.speechStart now) = (s, []) := by
  have hh : VoiceSession.handle s (.speechStart now) = (s, []) := by
    simp [VoiceSession.handle, VoiceSession.handleSpeechStart, hdeaf]
  rw [VoiceSession.step_eq, hh]
  rw [if_neg]
  · show ({ s with prevDeps := (s.isUserSpeaking, s.status) },
      ([] : List VoiceSession.Effect)) = (s, [])
    rw [← hq]
  · rintro ⟨hne, -⟩
    exact hne hq.symm

/-- Witness for C4 at the concrete post-turn state `sFullTurn`
(`deafUntil = 2800`): a `speechStarted` at t = 2400 changes nothing. -/
theorem C4_deaf_window_ignores_speech_witness :
    (sFullTurn.status = .speaking ∧ 2400 < sFullTurn.deafUntil ∧
     sFullTurn.prevDeps = (sFullTurn.isUserSpeaking, sFullTurn.status)) ∧
    VoiceSession.step sFullTurn (.speechStart 2400) = (sFullTurn, []) :=
  ⟨⟨by decide, by decide, by decide⟩,
   C4_deaf_window_ignores_speech sFullTurn 2400 (by decide) (by decide) (by decide)⟩

/-- C1: the session of `endSessionTrace` ends at t = 1200 with a chat
request still in flight; the state is then `idle` and inactive.  But when
the chat response and the TTS audio resolve late (t = 2000 / t = 3000),
`processUserSpeech`'s continuation runs with no `isActiveRef` guard
(VoiceSession.tsx lines 272-293): it issues the /api/speak fetch, pushes
the blob onto the audio queue, the chunk starts playing, and the unguarded
`handlePlaybackStart` moves the status to `speaking` — audio is enqueued
and played after session end and the state is resurrected out of `idle`,
exactly what the claim forbids. -/
theorem C1_stale_tts_resurrects :
    (VoiceSession.run endSessionTrace).1.status = .idle ∧
    (VoiceSession.run endSessionTrace).1.isActive = false ∧
    (VoiceSession.runAux (VoiceSession.run endSessionTrace).1
        lateResolutions).1.status = .speaking ∧
    VoiceSession.Effect.ttsRequest "Hi" ∈
      (VoiceSession.runAux (VoiceSession.run endSessionTrace).1 lateResolutions).2 ∧
    VoiceSession.Effect.chunkStarted 0 ∈
      (VoiceSession.runAux (VoiceSession.run endSessionTrace).1 lateResolutions).2 := by
  decide

/-- C5 counterexample: at the boundary instant `now = deafUntil` (here
2800) the claim's hypothesis `now ≥ deafUntil` holds, and `onspeechstart`
does accept the event (`isUserSpeaking` becomes true, since its guard is
`now < deafUntil`), but the barge-in effect requires the strict
`Date.now() > deafUntilRef.current` (line 339): no interrupt is called
(no `bargeIn` effect, the fade flag stays false), no transition happens —
the status remains `speaking` and the chunk keeps playing. -/
theorem C5_counterexample :
    sFullTurn.status = .speaking ∧ sFullTurn.deafUntil ≤ 2800 ∧
    (VoiceSession.step sFullTurn (.speechStart 2800)).2 = [] ∧
    (VoiceSession.step sFullTurn (.speechStart 2800)).1.status = .speaking ∧
    (VoiceSession.step sFullTurn (.speechStart 2800)).1.isUserSpeaking = true ∧
    (VoiceSession.step sFullTurn (.speechStart 2800)).1.aq.isFadingOut = false ∧
    (VoiceSession.step sFullTurn (.speechStart 2800)).1.aq.currentClip = some 0 := by
  decide

/-- C7 counterexample: the code has no minimum-duration filter.  In
`shortBurstTrace` the speech burst lasts 1 ms (speech start at t = 0,
speech end at t = 1) — below any plausible minimum duration — yet its
text "Hello" is dispatched: one AI chat request is issued and the state
transitions to `processing`, refuting "speech bursts below a minimum
duration are discarded without any state transition". -/
theorem C7_counterexample :
    VoiceSession.chatRequests (VoiceSession.run shortBurstTrace).2 = ["Hello"] ∧
    (VoiceSession.run shortBurstTrace).1.status = .processing := by
  decide

namespace VoiceSession

theorem applyAQCallback_frame (now : Nat) (s : State) (c : AudioQueue.Callback) :
    (applyAQCallback now s c).1.timers = s.timers ∧
    (applyAQCallback now s c).1.silenceTimerRef = s.silenceTimerRef := by
  cases c with
  | playbackStart => exact ⟨rfl, rfl⟩
  | playbackEnd =>
      show ((if s.isActive then _ else _ : State × List Effect)).1.timers = _ ∧ _
      by_cases h : s.isActive <;> simp [applyAQCallback, handlePlaybackEnd, h]
  | chunkStarted i => exact ⟨rfl, rfl⟩

theorem applyAQCallbacks_frame (now : Nat) (cbs : List AudioQueue.Callback) :
    ∀ s : State,
      (applyAQCallbacks now s cbs).1.timers = s.timers ∧
      (applyAQCallbacks now s cbs).1.silenceTimerRef = s.silenceTimerRef := by
  induction cbs with
  | nil => intro s; exact ⟨rfl, rfl⟩
  | cons c cs ih =>
      intro s
      have h1 := applyAQCallback_frame now s c
      have h2 := ih (applyAQCallback now s c).1
      exact ⟨h2.1.trans h1.1, h2.2.trans h1.2⟩

theorem liftAQ_frame (now : Nat) (s : State)
    (r : AudioQueue.State × List AudioQueue.Callback) :
    (liftAQ now s r).1.timers = s.timers ∧
    (liftAQ now s r).1.silenceTimerRef = s.silenceTimerRef :=
  applyAQCallbacks_frame now r.2 { s with aq := r.1 }

theorem timerInv_of_eq {s s' : State} (h : timerInv s)
    (ht : s'.timers = s.timers) (hr : s'.silenceTimerRef = s.silenceTimerRef) :
    timerInv s' := by
  rcases h with h | ⟨t, h1, h2⟩
  · exact Or.inl (ht.trans h)
  · exact Or.inr ⟨t, ht.trans h1, hr.trans h2⟩

theorem timerInv_clearSilenceTimer {s : State} (h : timerInv s) :
    timerInv (clearSilenceTimer s) := by
  rcases h with h | ⟨t, ht, hr⟩
  · cases hrr : s.silenceTimerRef <;>
      simp [clearSilenceTimer, hrr, timerInv, h]
  · left
    simp [clearSilenceTimer, hr, ht]

theorem timerInv_handleResult {s : State} (h : timerInv s) (now : Nat)
    (i f : String) : timerInv (handleResult now i f s).1 := by
  unfold handleResult
  split_ifs with h1 h2 h3
  · exact h
  · exact h
  · exact h
  · right
    refine ⟨⟨s.nextTimerId, now + SILENCE_THRESHOLD_MS,
             jsTrim (s.accumulatedText ++ " " ++ f)⟩, ?_, rfl⟩
    rcases h with h | ⟨t, ht, hr⟩
    · cases hrr : s.silenceTimerRef <;> simp [hrr, h]
    · simp [hr, ht]

theorem timerInv_processUserSpeech {s : State} (h : timerInv s) (text : String) :
    timerInv (processUserSpeech text s).1 := by
  unfold processUserSpeech
  split_ifs <;> exact h

theorem timers_filter_inv {s : State} (h : timerInv s) (tid : Nat) :
    timerInv { s with timers := s.timers.filter (fun u => u.tid != tid) } := by
  rcases h with h | ⟨t, ht, hr⟩
  · left; simp [h]
  · by_cases he : t.tid = tid
    · left; simp [ht, he]
    · right
      exact ⟨t, by simp [ht, bne_iff_ne, he], hr⟩

theorem timerInv_handleTimerFire {s : State} (h : timerInv s) (now tid : Nat) :
    timerInv (handleTimerFire now tid s).1 := by
  unfold handleTimerFire
  split
  · exact h
  · split
    · exact h
    · split
      · exact timerInv_processUserSpeech (timers_filter_inv h tid) _
      · exact timers_filter_inv h tid

theorem timerInv_handle {s : State} (h : timerInv s) (e : Event) :
    timerInv (handle s e).1 := by
  cases e with
  | startSession n => exact h
  | endSession n =>
      rcases h with h0 | ⟨t, ht, hrr⟩
      · cases hr : s.silenceTimerRef <;>
          · left
            simp [handle, handleEndSession, clearSilenceTimer, hr, liftAQ,
              applyAQCallbacks, applyAQCallback, handlePlaybackEnd,
              AudioQueue.stop, h0]
      · left
        simp [handle, handleEndSession, clearSilenceTimer, hrr, liftAQ,
          applyAQCallbacks, applyAQCallback, handlePlaybackEnd,
          AudioQueue.stop, ht]
  | speechStart n =>
      show timerInv (if n < s.deafUntil then (s, ([] : List Effect))
        else (clearSilenceTimer { s with isUserSpeaking := true }, [])).1
      split
      · exact h
      · exact @timerInv_clearSilenceTimer { s with isUserSpeaking := true } h
  | speechEnd n => exact h
  | result n i f => exact timerInv_handleResult h n i f
  | timerFire n tid => exact timerInv_handleTimerFire h n tid
  | chatResolve n cid o =>
      show timerInv (handleChatResolve cid o s).1
      unfold handleChatResolve
      split
      · exact h
      · split
        · exact h
        · exact h
  | ttsResolve n tid ok =>
      show timerInv (handleTtsResolve n tid ok s).1
      unfold handleTtsResolve
      split
      · exact h
      · split
        · exact timerInv_of_eq h (liftAQ_frame _ _ _).1 (liftAQ_frame _ _ _).2
        · exact h
  | synthStart n =>
      show timerInv (handleSynthStart n s).1
      unfold handleSynthStart
      split
      · exact h
      · exact h
  | synthEnd n =>
      show timerInv (handleSynthEnd s).1
      unfold handleSynthEnd
      split
      · split_ifs <;> exact h
      · exact h
  | chunkDone n =>
      have h2 := liftAQ_frame n s (AudioQueue.chunkDone s.aq)
      exact timerInv_of_eq h h2.1 h2.2
  | fadeComplete n =>
      have h2 := liftAQ_frame n s (AudioQueue.fadeComplete s.aq)
      exact timerInv_of_eq h h2.1 h2.2

theorem timerInv_step {s : State} (h : timerInv s) (e : Event) :
    timerInv (step s e).1 := by
  have hh := timerInv_handle h e
  rw [step_eq]
  split
  · exact timerInv_of_eq hh (bargeInBody_proj _).2.2.2.2.1
      (bargeInBody_proj _).2.2.2.2.2.1
  · exact hh

theorem timerInv_runAux (evs : List Event) :
    ∀ s : State, timerInv s → timerInv (runAux s evs).1 := by
  induction evs with
  | nil => intro s h; exact h
  | cons e es ih => intro s h; exact ih _ (timerInv_step h e)

/-- Lifting a handler-level fact through the barge-in effect wrapper: the
effect body never changes the status and never issues a chat request. -/
theorem step_preserves (s : State) (e : Event)
    (h2 : chatRequests (handle s e).2 = []) :
    (step s e).1.status = (handle s e).1.status ∧
    chatRequests (step s e).2 = [] := by
  rw [step_eq]
  split
  · refine ⟨rfl, ?_⟩
    rw [chatRequests_append, h2]
    simp [bargeInBody, chatRequests]
  · exact ⟨rfl, h2⟩

theorem handleResult_frame (now : Nat) (i f : String) (s : State) :
    (handleResult now i f s).1.status = s.status ∧
    (handleResult now i f s).2 = [] := by
  unfold handleResult
  split_ifs <;> simp

end VoiceSession

/-- C6: (1) over every event sequence at most one silence timer instance is
outstanding at a time — each arriving final fragment cancels the previous
timeout before arming the next.  (2) When an armed timer fires at its
deadline while the session is active and listening, and its captured text
passes the length filter, exactly one AI chat request is issued, whose
utterance text is exactly the timer's captured text — the trimmed
space-joined accumulation of the turn's final fragments — and the
coordinator moves to `processing`.  (3) Scenario E: fragments "Hello" at
t = 0 and "there" at t = 500 under the 1000 ms threshold leave exactly one
timer, with deadline 1500 = 500 + threshold and combined payload
"Hello there"; the cancelled first timer's firing at t = 1000 is a no-op
and the run issues exactly the one combined request.  (4) Scenario A: a
single fragment "Hello" yields exactly one request with utterance text
"Hello". -/
theorem C6_silence_timer :
    (∀ evs : List VoiceSession.Event,
       (VoiceSession.run evs).1.timers.length ≤ 1) ∧
    (∀ (s : VoiceSession.State) (now tid : Nat) (t : VoiceSession.SilenceTimer),
       s.timers.find? (fun u => u.tid == tid) = some t →
       t.deadline ≤ now → s.isActive = true → s.status = .listening →
       VoiceSession.MIN_TRANSCRIPT_LENGTH ≤ t.payload.length →
       VoiceSession.jsTrim t.payload ≠ "" →
       VoiceSession.chatRequests (VoiceSession.step s (.timerFire now tid)).2 =
         [t.payload] ∧
       (VoiceSession.step s (.timerFire now tid)).1.status = .processing) ∧
    (VoiceSession.chatRequests (VoiceSession.run
       [.startSession 0, .result 0 "" "Hello", .result 500 "" "there",
        .timerFire 1000 0, .timerFire 1500 1]).2 = ["Hello there"] ∧
     (VoiceSession.run
       [.startSession 0, .result 0 "" "Hello", .result 500 "" "there"]).1.timers =
       [⟨1, 500 + VoiceSession.SILENCE_THRESHOLD_MS, "Hello there"⟩]) ∧
    VoiceSession.chatRequests (VoiceSession.run
       [.startSession 0, .result 0 "" "Hello", .timerFire 1000 0]).2 = ["Hello"] := by
  refine ⟨?_, ?_, by decide, by decide⟩
  · intro evs
    have h := VoiceSession.timerInv_runAux evs VoiceSession.State.init (Or.inl rfl)
    rcases h with h | ⟨t, ht, -⟩
    · simp [VoiceSession.run, h]
    · simp [VoiceSession.run, ht]
  · intro s now tid t hf hdl hact hstat hlen htrim
    have hnlt : ¬ now < t.deadline := Nat.not_lt.mpr hdl
    have hnlen : ¬ t.payload.length < VoiceSession.MIN_TRANSCRIPT_LENGTH :=
      Nat.not_lt.mpr hlen
    have hh : VoiceSession.handle s (.timerFire now tid) =
        ({ s with timers := s.timers.filter (fun u => u.tid != tid),
                  status := .processing, isThinking := true, accumulatedText := "",
                  chatInFlight := s.chatInFlight ++ [(s.nextChatId, t.payload)],
                  nextChatId := s.nextChatId + 1 },
         [.recogStop, .chatRequest t.payload]) := by
      show VoiceSession.handleTimerFire now tid s = _
      unfold VoiceSession.handleTimerFire
      split
      · rename_i heq
        rw [hf] at heq
        cases heq
      · rename_i t2 heq
        rw [hf] at heq
        injection heq with heq
        subst heq
        rw [if_neg hnlt, if_pos ⟨hact, hstat, hlen⟩]
        unfold VoiceSession.processUserSpeech
        rw [if_neg (fun hc => by
          rcases hc with hc | hc | hc
          · exact htrim hc
          · exact hnlen hc
          · simp [hact] at hc)]
    rw [VoiceSession.step_eq, hh]
    split
    · rename_i hcon
      exact absurd hcon.2.2.1 (by simp)
    · exact ⟨by simp [VoiceSession.chatRequests], rfl⟩

/-- Witness for C6's hypothesised conjunct, at the concrete state reached
after scenario A's fragment: firing the armed timer issues exactly the one
request "Hello". -/
theorem C6_silence_timer_witness :
    ((VoiceSession.run [.startSession 0, .result 0 "" "Hello"]).1.timers.find?
        (fun u => u.tid == 0) = some ⟨0, 1000, "Hello"⟩) ∧
    VoiceSession.chatRequests (VoiceSession.step
        (VoiceSession.run [.startSession 0, .result 0 "" "Hello"]).1
        (.timerFire 1000 0)).2 = ["Hello"] :=
  ⟨by decide,
   (C6_silence_timer.2.1 _ 1000 0 ⟨0, 1000, "Hello"⟩ (by decide) (by decide)
      (by decide) (by decide) (by decide) (by decide)).1⟩


namespace VoiceSession

theorem handleTimerFire_eq_none {s : State} {now tid : Nat}
    (hf : s.timers.find? (fun u => u.tid == tid) = none) :
    handleTimerFire now tid s = (s, []) := by
  unfold handleTimerFire
  split
  · rfl
  · rename_i t2 heq
    rw [hf] at heq
    cases heq

theorem handleTimerFire_eq_some {s : State} {now tid : Nat} {t : SilenceTimer}
    (hf : s.timers.find? (fun u => u.tid == tid) = some t) :
    handleTimerFire now tid s =
      (if now < t.deadline then (s, [])
       else if s.isActive = true ∧ s.status = .listening ∧
               MIN_TRANSCRIPT_LENGTH ≤ t.payload.length
       then processUserSpeech t.payload
              { s with timers := s.timers.filter (fun u => u.tid != tid) }
       else ({ s with timers := s.timers.filter (fun u => u.tid != tid) }, [])) := by
  unfold handleTimerFire
  split
  · rename_i heq
    rw [hf] at heq
    cases heq
  · rename_i t2 heq
    rw [hf] at heq
    injection heq with heq
    subst heq
    rfl

theorem handleChatResolve_fail_eq {s : State} {cid : Nat} {q : Nat × String}
    (hf : s.chatInFlight.find? (fun p => p.1 == cid) = some q) :
    handleChatResolve cid .fail s =
      ({ s with chatInFlight := s.chatInFlight.filter (fun p => p.1 != cid),
                isThinking := false, aiResponse := FALLBACK_TEXT,
                synth := .pending FALLBACK_TEXT },
       [.synthCancel, .synthSpeak FALLBACK_TEXT]) := by
  unfold handleChatResolve
  split
  · rename_i heq
    rw [hf] at heq
    cases heq
  · rfl

end VoiceSession

/-- C5 amended: strictly after the deaf window (`now > deafUntil` — the
claim's `now ≥ deafUntil` fails at the boundary instant, see the
counterexample), a detected user speech start while `speaking` runs the
barge-in effect exactly once: the effect list is exactly
`[bargeIn, synthCancel]` (one `fadeOutAndClear()` call), the user is marked
speaking, and the audio queue enters its fade.  When the fade completes
(second conjunct), `stop()` discards every queued chunk and the drained
callback returns the coordinator to `listening` — driven by the 200 ms
fade, not by the AI call or playback finishing on their own. -/
theorem C5_barge_in_amended :
    (∀ (s : VoiceSession.State) (now : Nat),
       s.isActive = true → s.status = .speaking → s.isUserSpeaking = false →
       s.prevDeps = (false, .speaking) → s.deafUntil < now →
       ((VoiceSession.step s (.speechStart now)).2 = [.bargeIn, .synthCancel] ∧
        (VoiceSession.step s (.speechStart now)).1.isUserSpeaking = true ∧
        (VoiceSession.step s (.speechStart now)).1.status = .speaking ∧
        (VoiceSession.step s (.speechStart now)).1.isActive = true ∧
        (VoiceSession.step s (.speechStart now)).1.aq =
          (AudioQueue.fadeOutAndClear s.aq).1)) ∧
    (∀ (s2 : VoiceSession.State) (n2 : Nat),
       s2.aq.isFadingOut = true → s2.isActive = true →
       ((VoiceSession.step s2 (.fadeComplete n2)).1.status = .listening ∧
        (VoiceSession.step s2 (.fadeComplete n2)).1.aq.queue = [])) := by
  constructor
  · intro s now hact hstat husp hprev hdeaf
    have hnlt : ¬ now < s.deafUntil := by omega
    cases hr : s.silenceTimerRef with
    | none =>
        have hh : VoiceSession.handle s (.speechStart now) =
            ({ s with isUserSpeaking := true }, []) := by
          show VoiceSession.handleSpeechStart now s = _
          simp [VoiceSession.handleSpeechStart, VoiceSession.clearSilenceTimer,
            hnlt, hr]
        rw [VoiceSession.step_eq, hh]
        split
        · exact ⟨rfl, rfl, hstat, hact, rfl⟩
        · rename_i hcon
          exact absurd ⟨by simp [hprev], rfl, hstat, hdeaf⟩ hcon
    | some i =>
        have hh : VoiceSession.handle s (.speechStart now) =
            ({ s with isUserSpeaking := true,
                      timers := s.timers.filter (fun t => t.tid != i),
                      silenceTimerRef := none }, []) := by
          show VoiceSession.handleSpeechStart now s = _
          simp [VoiceSession.handleSpeechStart, VoiceSession.clearSilenceTimer,
            hnlt, hr]
        rw [VoiceSession.step_eq, hh]
        split
        · exact ⟨rfl, rfl, hstat, hact, rfl⟩
        · rename_i hcon
          exact absurd ⟨by simp [hprev], rfl, hstat, hdeaf⟩ hcon
  · intro s2 n2 hfade hact
    have hh : VoiceSession.handle s2 (.fadeComplete n2) =
        ({ s2 with
             aq := { s2.aq with currentClip := none, queue := [],
                                isPlaying := false, isFadingOut := false },
             status := .listening, transcript := "", interimTranscript := "",
             accumulatedText := "" },
         [.speakingChanged false, .recogRestart]) := by
      show VoiceSession.handleFadeComplete n2 s2 = _
      simp [VoiceSession.handleFadeComplete, VoiceSession.liftAQ,
        AudioQueue.fadeComplete, AudioQueue.stop, hfade,
        VoiceSession.applyAQCallbacks, VoiceSession.applyAQCallback,
        VoiceSession.handlePlaybackEnd, hact]
    rw [VoiceSession.step_eq, hh]
    split
    · rename_i hcon
      exact absurd hcon.2.2.1 (by simp)
    · exact ⟨rfl, rfl⟩

/-- Witness for C5's amended theorem at the concrete state `sFullTurn`
(`deafUntil = 2800`): speech starting at t = 2801 triggers exactly one
barge-in, and the fade's completion lands in `listening`. -/
theorem C5_barge_in_amended_witness :
    (sFullTurn.isActive = true ∧ sFullTurn.status = .speaking ∧
     sFullTurn.isUserSpeaking = false ∧ sFullTurn.prevDeps = (false, .speaking) ∧
     sFullTurn.deafUntil < 2801) ∧
    (VoiceSession.step sFullTurn (.speechStart 2801)).2 =
      [.bargeIn, .synthCancel] ∧
    (VoiceSession.step (VoiceSession.step sFullTurn (.speechStart 2801)).1
        (.fadeComplete 3000)).1.status = .listening :=
  ⟨⟨by decide, by decide, by decide, by decide, by decide⟩,
   (C5_barge_in_amended.1 sFullTurn 2801 (by decide) (by decide) (by decide)
      (by decide) (by decide)).1,
   (C5_barge_in_amended.2 (VoiceSession.step sFullTurn (.speechStart 2801)).1
      3000 (by decide) (by decide)).1⟩

/-- C7 amended: only the character-length filter exists.  (1) A final
fragment's arrival never changes the coordinator status and never issues a
chat request by itself.  (2) When the silence timer fires and every armed
timer with that handle captured text shorter than MIN_TRANSCRIPT_LENGTH,
no chat request is issued and the status is unchanged — the short
accumulation is discarded.  (3) `processUserSpeech` itself drops any text
below the minimum length with no state change and no effect.  Burst
duration, by contrast, is never examined (see the counterexample). -/
theorem C7_min_length_filter_amended :
    (∀ (s : VoiceSession.State) (now : Nat) (interim finalTxt : String),
       (VoiceSession.step s (.result now interim finalTxt)).1.status = s.status ∧
       VoiceSession.chatRequests
         (VoiceSession.step s (.result now interim finalTxt)).2 = []) ∧
    (∀ (s : VoiceSession.State) (now tid : Nat),
       (∀ t ∈ s.timers, t.tid = tid →
          t.payload.length < VoiceSession.MIN_TRANSCRIPT_LENGTH) →
       ((VoiceSession.step s (.timerFire now tid)).1.status = s.status ∧
        VoiceSession.chatRequests
          (VoiceSession.step s (.timerFire now tid)).2 = [])) ∧
    (∀ (text : String) (s : VoiceSession.State),
       text.length < VoiceSession.MIN_TRANSCRIPT_LENGTH →
       VoiceSession.processUserSpeech text s = (s, [])) := by
  refine ⟨?_, ?_, ?_⟩
  · intro s now i f
    have hfr := VoiceSession.handleResult_frame now i f s
    have h2 : VoiceSession.chatRequests
        (VoiceSession.handle s (.result now i f)).2 = [] := by
      show VoiceSession.chatRequests (VoiceSession.handleResult now i f s).2 = []
      rw [hfr.2]
      rfl
    have hp := VoiceSession.step_preserves s (.result now i f) h2
    exact ⟨hp.1.trans hfr.1, hp.2⟩
  · intro s now tid hshort
    cases hf : s.timers.find? (fun u => u.tid == tid) with
    | none =>
        have h2 : VoiceSession.chatRequests
            (VoiceSession.handle s (.timerFire now tid)).2 = [] := by
          show VoiceSession.chatRequests
            (VoiceSession.handleTimerFire now tid s).2 = []
          rw [VoiceSession.handleTimerFire_eq_none hf]
          rfl
        have hst : (VoiceSession.handle s (.timerFire now tid)).1.status
            = s.status := by
          show (VoiceSession.handleTimerFire now tid s).1.status = s.status
          rw [VoiceSession.handleTimerFire_eq_none hf]
        have hp := VoiceSession.step_preserves s (.timerFire now tid) h2
        exact ⟨hp.1.trans hst, hp.2⟩
    | some t =>
        have hmem := List.mem_of_find?_eq_some hf
        have htid : t.tid = tid := by
          have h3 := List.find?_some hf
          simpa using h3
        have hlen := hshort t hmem htid
        have hg : ¬(s.isActive = true ∧ s.status = .listening ∧
            VoiceSession.MIN_TRANSCRIPT_LENGTH ≤ t.payload.length) := by
          rintro ⟨-, -, hge⟩
          exact absurd hlen (Nat.not_lt.mpr hge)
        have heq := @VoiceSession.handleTimerFire_eq_some s now tid t hf
        by_cases hdl : now < t.deadline
        · rw [if_pos hdl] at heq
          have h2 : VoiceSession.chatRequests
              (VoiceSession.handle s (.timerFire now tid)).2 = [] := by
            show VoiceSession.chatRequests
              (VoiceSession.handleTimerFire now tid s).2 = []
            rw [heq]
            rfl
          have hst : (VoiceSession.handle s (.timerFire now tid)).1.status
              = s.status := by
            show (VoiceSession.handleTimerFire now tid s).1.status = s.status
            rw [heq]
          have hp := VoiceSession.step_preserves s (.timerFire now tid) h2
          exact ⟨hp.1.trans hst, hp.2⟩
        · rw [if_neg hdl, if_neg hg] at heq
          have h2 : VoiceSession.chatRequests
              (VoiceSession.handle s (.timerFire now tid)).2 = [] := by
            show VoiceSession.chatRequests
              (VoiceSession.handleTimerFire now tid s).2 = []
            rw [heq]
            rfl
          have hst : (VoiceSession.handle s (.timerFire now tid)).1.status
              = s.status := by
            show (VoiceSession.handleTimerFire now tid s).1.status = s.status
            rw [heq]
          have hp := VoiceSession.step_preserves s (.timerFire now tid) h2
          exact ⟨hp.1.trans hst, hp.2⟩
  · intro text s h
    unfold VoiceSession.processUserSpeech
    rw [if_pos (Or.inr (Or.inl h))]

/-- Witness for C7's amended theorem: at `sShortPayload` (armed timer whose
captured text "a" has length 1 < 2) the firing issues no request and
leaves the status, and `processUserSpeech "a"` from the initial state is a
no-op. -/
theorem C7_min_length_filter_amended_witness :
    (∀ t ∈ sShortPayload.timers, t.tid = 0 →
       t.payload.length < VoiceSession.MIN_TRANSCRIPT_LENGTH) ∧
    (VoiceSession.step sShortPayload (.timerFire 1000 0)).1.status =
      sShortPayload.status ∧
    VoiceSession.chatRequests
      (VoiceSession.step sShortPayload (.timerFire 1000 0)).2 = [] ∧
    VoiceSession.processUserSpeech "a" VoiceSession.State.init =
      (VoiceSession.State.init, []) :=
  ⟨by decide,
   (C7_min_length_filter_amended.2.1 sShortPayload 1000 0 (by decide)).1,
   (C7_min_length_filter_amended.2.1 sShortPayload 1000 0 (by decide)).2,
   C7_min_length_filter_amended.2.2 "a" VoiceSession.State.init (by decide)⟩

/-- C8: when the /api/chat call fails (network rejection, non-ok status, or
json failure — all routed to the same catch), the coordinator substitutes
the one fixed fallback phrase "I'm here with you. Take your time.": it is
stored as the AI response, spoken through the browser TTS (`synthSpeak`),
and no error message is set — the user never sees a technical error.  The
utterance's `onstart` then reaches `speaking`, and its `onend` returns the
active session to `listening` with a recognition restart, exactly the
end state of a success path. -/
theorem C8_chat_failure_fallback :
    (∀ (s : VoiceSession.State) (now cid : Nat) (txt : String),
       s.chatInFlight = [(cid, txt)] → s.status = .processing →
       ((VoiceSession.step s (.chatResolve now cid .fail)).1.aiResponse =
          VoiceSession.FALLBACK_TEXT ∧
        (VoiceSession.step s (.chatResolve now cid .fail)).1.synth =
          .pending VoiceSession.FALLBACK_TEXT ∧
        (VoiceSession.step s (.chatResolve now cid .fail)).1.errorMsg =
          s.errorMsg ∧
        (VoiceSession.step s (.chatResolve now cid .fail)).1.status =
          .processing ∧
        (VoiceSession.step s (.chatResolve now cid .fail)).1.isActive =
          s.isActive ∧
        (VoiceSession.step s (.chatResolve now cid .fail)).2 =
          [.synthCancel, .synthSpeak VoiceSession.FALLBACK_TEXT])) ∧
    (∀ (s : VoiceSession.State) (now : Nat) (t : String),
       s.synth = .pending t →
       ((VoiceSession.step s (.synthStart now)).1.status = .speaking ∧
        (VoiceSession.step s (.synthStart now)).1.synth = .speaking t ∧
        (VoiceSession.step s (.synthStart now)).1.errorMsg = s.errorMsg ∧
        (VoiceSession.step s (.synthStart now)).1.aiResponse = s.aiResponse)) ∧
    (∀ (s : VoiceSession.State) (now : Nat) (t : String),
       s.synth = .speaking t → s.isActive = true →
       ((VoiceSession.step s (.synthEnd now)).1.status = .listening ∧
        (VoiceSession.step s (.synthEnd now)).1.errorMsg = s.errorMsg ∧
        VoiceSession.Effect.recogRestart ∈
          (VoiceSession.step s (.synthEnd now)).2)) := by
  refine ⟨?_, ?_, ?_⟩
  · intro s now cid txt hcf hstat
    have hf : s.chatInFlight.find? (fun p => p.1 == cid) = some (cid, txt) := by
      rw [hcf]
      simp
    have hh : VoiceSession.handle s (.chatResolve now cid .fail) =
        ({ s with chatInFlight := s.chatInFlight.filter (fun p => p.1 != cid),
                  isThinking := false, aiResponse := VoiceSession.FALLBACK_TEXT,
                  synth := .pending VoiceSession.FALLBACK_TEXT },
         [.synthCancel, .synthSpeak VoiceSession.FALLBACK_TEXT]) :=
      VoiceSession.handleChatResolve_fail_eq hf
    rw [VoiceSession.step_eq, hh]
    split
    · rename_i hcon
      exact absurd hcon.2.2.1 (by simp [hstat])
    · exact ⟨rfl, rfl, rfl, hstat, rfl, rfl⟩
  · intro s now t hsp
    have hh : VoiceSession.handle s (.synthStart now) =
        ({ s with synth := .speaking t, status := .speaking,
                  deafUntil := now + VoiceSession.DEAF_PERIOD_MS },
         [.speakingChanged true]) := by
      show VoiceSession.handleSynthStart now s = _
      unfold VoiceSession.handleSynthStart
      split
      · rename_i t2 heq
        rw [hsp] at heq
        injection heq with heq
        subst heq
        rfl
      · rename_i hne
        exact absurd hsp (hne t)
    rw [VoiceSession.step_eq, hh]
    split
    · rename_i hcon
      exact absurd hcon.2.2.2 (by
        show ¬ (now + VoiceSession.DEAF_PERIOD_MS < now)
        omega)
    · exact ⟨rfl, rfl, rfl, rfl⟩
  · intro s now t hsp hact
    have hh : VoiceSession.handle s (.synthEnd now) =
        ({ s with synth := .quiet, status := .listening, transcript := "",
                  accumulatedText := "" },
         [.speakingChanged false, .recogRestart]) := by
      show VoiceSession.handleSynthEnd s = _
      unfold VoiceSession.handleSynthEnd
      split
      · rw [if_pos hact]
      · rename_i hne
        exact absurd hsp (hne t)
    rw [VoiceSession.step_eq, hh]
    split
    · rename_i hcon
      exact absurd hcon.2.2.1 (by simp)
    · exact ⟨rfl, rfl, by simp⟩

/-- Witness for C8 at the concrete state `sProcessing` (chat request for
"Hello" in flight): the failure resolution stores the fallback phrase,
`onstart` reaches `speaking`, `onend` returns to `listening`. -/
theorem C8_chat_failure_fallback_witness :
    (sProcessing.chatInFlight = [(0, "Hello")] ∧
     sProcessing.status = .processing) ∧
    (VoiceSession.step sProcessing (.chatResolve 2000 0 .fail)).1.aiResponse =
      VoiceSession.FALLBACK_TEXT ∧
    (VoiceSession.step (VoiceSession.step sProcessing
        (.chatResolve 2000 0 .fail)).1 (.synthStart 2100)).1.status =
      .speaking ∧
    (VoiceSession.step (VoiceSession.step (VoiceSession.step sProcessing
        (.chatResolve 2000 0 .fail)).1 (.synthStart 2100)).1
        (.synthEnd 3000)).1.status = .listening :=
  ⟨⟨by decide, by decide⟩,
   (C8_chat_failure_fallback.1 sProcessing 2000 0 "Hello" (by decide)
      (by decide)).1,
   (C8_chat_failure_fallback.2.1 (VoiceSession.step sProcessing
      (.chatResolve 2000 0 .fail)).1 2100 VoiceSession.FALLBACK_TEXT
      (by decide)).1,
   (C8_chat_failure_fallback.2.2 (VoiceSession.step (VoiceSession.step
      sProcessing (.chatResolve 2000 0 .fail)).1 (.synthStart 2100)).1 3000
      VoiceSession.FALLBACK_TEXT (by decide) (by decide)).1⟩

/-- C9 counterexample: when the key is present, the body carries a message,
and the Gemini call succeeds but returns the empty string, the route
returns `{ text: "" }` (line 141 returns the model's text verbatim) — a
response whose `text` field is empty, refuting "a non-empty `text` field"
for every POST request. -/
theorem C9_counterexample :
    ChatRoute.POST ⟨"key", some "hi", false, some ""⟩ = ⟨200, some ""⟩ := by
  decide

/-- C9 amended: every response body carries a `text` field; in the
missing-key (503), json-failure / persona-failure / model-error (500) and
missing-message (200) cases that field is one of three fixed non-empty warm
companion phrases; on model success the field is the model's text verbatim,
which the route does not check for emptiness. -/
theorem C9_chat_route_amended (env : ChatRoute.Env) :
    (ChatRoute.POST env).text.isSome = true ∧
    (env.apiKey = "" →
       ChatRoute.POST env = ⟨503, some ChatRoute.keyMissingText⟩) ∧
    (env.apiKey ≠ "" → env.body = none →
       ChatRoute.POST env = ⟨500, some ChatRoute.errorText⟩) ∧
    (env.apiKey ≠ "" → env.body = some "" →
       ChatRoute.POST env = ⟨200, some ChatRoute.noMessageText⟩) ∧
    (∀ m2 : String, env.apiKey ≠ "" → env.body = some m2 → m2 ≠ "" →
       env.personaRaises = false → env.modelText = none →
       ChatRoute.POST env = ⟨500, some ChatRoute.errorText⟩) ∧
    ChatRoute.keyMissingText ≠ "" ∧ ChatRoute.noMessageText ≠ "" ∧
    ChatRoute.errorText ≠ "" := by
  refine ⟨?_, ?_, ?_, ?_, ?_, by decide, by decide, by decide⟩
  · obtain ⟨k, b, p, m⟩ := env
    by_cases hk : k = ""
    · simp [ChatRoute.POST, hk]
    · cases b with
      | none => simp [ChatRoute.POST, hk]
      | some msg =>
          by_cases hm : msg = ""
          · simp [ChatRoute.POST, hk, hm]
          · cases p <;> cases m <;> simp [ChatRoute.POST, hk, hm]
  · intro hk
    simp [ChatRoute.POST, hk]
  · intro hk hb
    simp [ChatRoute.POST, hk, hb]
  · intro hk hb
    simp [ChatRoute.POST, hk, hb]
  · intro m2 hk hb hm hp hmt
    simp [ChatRoute.POST, hk, hb, hm, hp, hmt]

/-- Witness for C9's amended theorem at the three enumerated failure
inputs. -/
theorem C9_chat_route_amended_witness :
    ChatRoute.POST ⟨"", some "hi", false, none⟩ =
      ⟨503, some ChatRoute.keyMissingText⟩ ∧
    ChatRoute.POST ⟨"k", none, false, none⟩ =
      ⟨500, some ChatRoute.errorText⟩ ∧
    ChatRoute.POST ⟨"k", some "", false, none⟩ =
      ⟨200, some ChatRoute.noMessageText⟩ ∧
    ChatRoute.POST ⟨"k", some "hi", false, none⟩ =
      ⟨500, some ChatRoute.errorText⟩ :=
  ⟨(C9_chat_route_amended ⟨"", some "hi", false, none⟩).2.1 rfl,
   (C9_chat_route_amended ⟨"k", none, false, none⟩).2.2.1 (by decide) rfl,
   (C9_chat_route_amended ⟨"k", some "", false, none⟩).2.2.2.1 (by decide) rfl,
   (C9_chat_route_amended ⟨"k", some "hi", false, none⟩).2.2.2.2.1 "hi"
      (by decide) rfl (by decide) rfl rfl⟩
